import Mathlib

/-!
Shallow embedding of src/advanced-vector/vector.h.

The header defines two class templates:
  RawMemory<T> : an owning handle on uninitialized storage, a pair of a
    buffer address and an element capacity (fields buffer_, capacity_);
  Vector<T>    : a dynamic array storing a RawMemory<T> data_ plus a live
    element count size_, with the invariant that exactly the elements at
    indices [0, size_) of the buffer are constructed.

Embedding choices:
  - RawMemory is modelled by a pair of an optional region identifier
    (none stands for the null buffer_ pointer) and a capacity.
  - Vector is modelled by the list of its live element values together with
    the capacity of its buffer (the size_ field of the source always equals
    the number of live elements, so it is the length of the list).
  - Member functions taking this and a reference argument that the source
    compares by address (operator=) additionally take a Boolean telling
    whether the two references alias, mirroring the pointer comparison
    this == &rhs of the source.
  - Functions that mutate an argument passed by reference (Swap, the move
    operations) return the pair (new value of this, new value of the other
    object).
  - The exception behaviour of the reallocating EmplaceBack is modelled
    separately by a step trace with an explicit throw oracle, recording
    which new-buffer slots hold constructed elements when control leaves
    the function.
-/

/-- Model of RawMemory<T> (vector.h lines 8-100): buffer_ is an optional
region identifier, none modelling the null pointer; capacity_ an element
count. -/
structure RawMemoryM where
  buffer : Option Nat
  capacity : Nat
deriving DecidableEq

/-- The default-constructed RawMemory (line 12): buffer_ = nullptr,
capacity_ = 0. -/
def RawMemoryM.defaultRM : RawMemoryM := ⟨none, 0⟩

/-- RawMemory::Swap (lines 64-68): std::swap of buffer_ and capacity_.
Returns (new value of this, new value of other). -/
def RawMemoryM.SwapRM (a b : RawMemoryM) : RawMemoryM × RawMemoryM := (b, a)

/-- RawMemory move constructor (lines 22-25): the new object starts
default-initialized (nullptr, 0) and then calls Swap(other). Returns
(the constructed object, the source after the call). -/
def RawMemoryMoveCtor (other : RawMemoryM) : RawMemoryM × RawMemoryM :=
  RawMemoryM.SwapRM RawMemoryM.defaultRM other

/-- RawMemory move assignment (lines 27-34): if this != &rhs then Swap(rhs),
else nothing. The Boolean isSelf models the address comparison. Returns
(this after the call, rhs after the call). -/
def RawMemoryMoveAssign (self rhs : RawMemoryM) (isSelf : Bool) : RawMemoryM × RawMemoryM :=
  if isSelf then (self, rhs) else RawMemoryM.SwapRM self rhs

/-- Model of Vector<T> (vector.h lines 102-381): elems is the list of live
element values (indices [0, size_) of data_), cap is data_.Capacity(). -/
structure VectorM (α : Type) where
  elems : List α
  cap : Nat
deriving DecidableEq

/-- Vector::Size (lines 312-315): returns size_, the number of live
elements. -/
def VectorM.Size {α : Type} (v : VectorM α) : Nat := v.elems.length

/-- Vector::Capacity (lines 317-320): returns data_.Capacity(). -/
def VectorM.CapacityV {α : Type} (v : VectorM α) : Nat := v.cap

/-- Vector::operator[] (lines 327-331): the value read at index, defined
for index < size_ (the source asserts this and reads data_[index]). -/
def VectorM.atIdx {α : Type} [Inhabited α] (v : VectorM α) (i : Nat) : α :=
  v.elems.getD i default

/-- The default-constructed Vector (line 109): data_ is a default RawMemory
(capacity 0) and size_ = 0. -/
def VectorM.emptyV {α : Type} : VectorM α := ⟨[], 0⟩

/-- Vector::Swap (lines 156-160): swaps data_ and size_ with the other
vector. Returns (new value of this, new value of other). -/
def VectorM.SwapV {α : Type} (a b : VectorM α) : VectorM α × VectorM α := (b, a)

/-- Vector move constructor (lines 123-126): the new object starts with
default members (empty buffer, size 0) and calls Swap(other). Returns
(the constructed vector, the source after the call). -/
def VectorM.MoveCtor {α : Type} (other : VectorM α) : VectorM α × VectorM α :=
  VectorM.SwapV VectorM.emptyV other

/-- Vector move assignment (lines 145-154): if this == &rhs return
unchanged, else Swap(rhs). Returns (this after the call, rhs after the
call). -/
def VectorM.MoveAssign {α : Type} (self rhs : VectorM α) (isSelf : Bool) :
    VectorM α × VectorM α :=
  if isSelf then (self, rhs) else VectorM.SwapV self rhs

/-- Vector::CopyFromRhsVector (lines 367-380): std::copy assigns the first
min(rhs.size_, size_) values of rhs over the live prefix (line 369); then
either the surplus tail of this is destroyed (line 373) or the remaining
suffix of rhs is copy-constructed after the prefix (line 377); size_
becomes rhs.size_ (line 379). The capacity is untouched. -/
def VectorM.CopyFromRhsVector {α : Type} (self rhs : VectorM α) : VectorM α :=
  let assigned := rhs.elems.take (min rhs.Size self.Size)
  if rhs.Size < self.Size then
    ⟨assigned, self.cap⟩
  else
    ⟨assigned ++ rhs.elems.drop self.Size, self.cap⟩

/-- Vector copy assignment (lines 128-143): if this != &rhs, either build a
full copy of rhs and swap it in when rhs.size_ exceeds the current capacity
(the copy constructor at lines 117-121 allocates capacity other.size_), or
reuse the existing storage via CopyFromRhsVector. -/
def VectorM.CopyAssign {α : Type} (self rhs : VectorM α) (isSelf : Bool) : VectorM α :=
  if isSelf then self
  else if rhs.Size > self.cap then ⟨rhs.elems, rhs.Size⟩
  else self.CopyFromRhsVector rhs

/-- Vector::Reserve (lines 167-185): nothing when new_capacity fits,
otherwise a new buffer of exactly new_capacity is filled with the existing
values (by move or copy construction, value-identical either way), the old
elements are destroyed and the buffers swapped. -/
def VectorM.Reserve {α : Type} (v : VectorM α) (n : Nat) : VectorM α :=
  if n ≤ v.cap then v else ⟨v.elems, n⟩

/-- Vector::Resize (lines 187-204): shrinking destroys the tail beyond
new_size; growing first calls Reserve when new_size exceeds the capacity,
then value-constructs the missing tail elements. -/
def VectorM.Resize {α : Type} [Inhabited α] (v : VectorM α) (n : Nat) : VectorM α :=
  if n < v.Size then
    ⟨v.elems.take n, v.cap⟩
  else
    let v1 := if n > v.cap then v.Reserve n else v
    ⟨v1.elems ++ List.replicate (n - v.Size) default, v1.cap⟩

/-- Vector::EmplaceBack (lines 212-239). If size_ >= Capacity(): a new
buffer of size_ == 0 ? 1 : size_ * 2 slots is allocated (line 218), the new
element is constructed at new-buffer index size_ (line 219), the old
elements are relocated to indices [0, size_) (lines 220-227, by move or
copy, value-identical), the old elements destroyed and the buffers swapped
(lines 229-230); so the values read afterwards are the old ones followed by
the new one. Otherwise the new element is constructed in place at index
size_ (line 234). Finally size_ is incremented. -/
def VectorM.EmplaceBack {α : Type} (v : VectorM α) (x : α) : VectorM α :=
  if v.Size ≥ v.cap then
    ⟨v.elems ++ [x], if v.Size = 0 then 1 else v.Size * 2⟩
  else
    ⟨v.elems ++ [x], v.cap⟩

/-- Vector::PushBack (lines 206-210): forwards to EmplaceBack. -/
def VectorM.PushBack {α : Type} (v : VectorM α) (x : α) : VectorM α :=
  v.EmplaceBack x

/-- Vector::PopBack (lines 241-248): when size_ != 0, decrement size_ and
destroy the last element; otherwise nothing. -/
def VectorM.PopBack {α : Type} (v : VectorM α) : VectorM α :=
  if v.Size ≠ 0 then ⟨v.elems.dropLast, v.cap⟩ else v

/-- The assertion guarding Vector::Emplace (line 253):
assert(pos >= begin() && pos < end()). With i = pos - begin() a natural
number, pos >= begin() always holds and pos < end() is i < size_. -/
def VectorM.EmplaceAssertHolds {α : Type} (v : VectorM α) (i : Nat) : Bool :=
  decide (i < v.Size)

/-- Vector::Emplace (lines 250-291) at distance i = pos - begin().
If size_ < capacity (lines 255-267): at pos == end() the element is
constructed directly at end() (line 259); otherwise a temporary is built
from the arguments, the last element is move-constructed into the new end
slot, the range [i, size_-1) is shifted right one slot by move_backward and
the temporary move-assigned into slot i (lines 263-266) — the resulting
values are the first i old values, the new value, then the remaining old
values. If at capacity (lines 269-287): a new buffer of
size_ == 0 ? 1 : size_ * 2 slots is allocated, the new element constructed
at new-buffer index i (line 272), the old prefix [0, i) relocated to
[0, i) and the old suffix [i, size_) relocated to [i+1, size_+1)
(lines 274-283), the old elements destroyed and the buffers swapped.
Either way size_ is incremented and begin() + i returned; the second
component of the result is the index i the returned iterator designates. -/
def VectorM.Emplace {α : Type} (v : VectorM α) (i : Nat) (x : α) : VectorM α × Nat :=
  if v.Size < v.cap then
    if i = v.Size then
      (⟨v.elems ++ [x], v.cap⟩, i)
    else
      (⟨v.elems.take i ++ x :: v.elems.drop i, v.cap⟩, i)
  else
    (⟨v.elems.take i ++ x :: v.elems.drop i,
      if v.Size = 0 then 1 else v.Size * 2⟩, i)

/-- The assertion guarding Vector::Erase (line 305), same form as the one
of Emplace: with i = pos - begin(), it is i < size_. -/
def VectorM.EraseAssertHolds {α : Type} (v : VectorM α) (i : Nat) : Bool :=
  decide (i < v.Size)

/-- Vector::Erase (lines 303-310) at distance i = pos - begin(): std::move
shifts the values at [i+1, size_) left one slot onto [i, size_-1), PopBack
destroys the now-dead last slot, and begin() + i is returned; the second
component of the result is the index i the returned iterator designates. -/
def VectorM.Erase {α : Type} (v : VectorM α) (i : Nat) : VectorM α × Nat :=
  (⟨v.elems.take i ++ v.elems.drop (i + 1), v.cap⟩, i)

/-- Vector::Insert (lines 293-301): both overloads forward to Emplace. -/
def VectorM.Insert {α : Type} (v : VectorM α) (i : Nat) (x : α) : VectorM α × Nat :=
  v.Emplace i x

/-- The compile-time relocation condition used by Reserve, EmplaceBack and
Emplace (lines 175, 220, 274):
is_nothrow_move_constructible_v<T> || !is_copy_constructible_v<T>.
When it holds the existing elements are transferred by move construction
(uninitialized_move_n), otherwise by copy construction
(uninitialized_copy_n). -/
structure ElemTraits where
  nothrowMoveConstructible : Bool
  copyConstructible : Bool
deriving DecidableEq

/-- The relocation choice the source makes for a type with the given
traits: move construction exactly when the if-constexpr condition of lines
175, 220 and 274 holds. -/
def relocatesByMove (t : ElemTraits) : Bool :=
  t.nothrowMoveConstructible || !t.copyConstructible

/-- Modelled from the claim wording for comparison: relocation by move
construction if and only if the move constructor of the element type is
declared non-throwing. -/
def specRelocatesByMove (t : ElemTraits) : Bool :=
  t.nothrowMoveConstructible

/-- Outcome of one reallocating EmplaceBack call: either it returns
normally with the resulting size_ and Capacity(), or an element constructor
threw and the exception propagates with the vector holding the recorded
size_ and Capacity(), oldElemsIntact telling whether the elements of the
original buffer are still live and untouched, and newBufLiveSlots listing
the new-buffer slots that still hold a constructed element at the moment
the exception leaves the function (the RawMemory destructor of new_data
releases the raw storage during unwinding but destroys no element). -/
inductive EBOutcome where
  | ok (size cap : Nat)
  | thrown (size cap : Nat) (oldElemsIntact : Bool) (newBufLiveSlots : List Nat)
deriving DecidableEq

/-- Step trace of the reallocating branch of Vector::EmplaceBack
(lines 216-231) for an element type that is copy constructible and whose
move constructor is not declared noexcept, so the relocation uses
uninitialized_copy_n (line 226). The call starts with size = size_ = cap =
Capacity(). throwStep injects a constructor failure: some 0 makes the
construction of the new element at new-buffer slot size (line 219) throw;
some (k+1) with k < size makes the copy of old element k inside
uninitialized_copy_n throw; any other value lets every constructor succeed.
Semantics of the steps, in source order:
  line 218: new_data is allocated with size == 0 ? 1 : size * 2 slots;
  line 219: the new element is constructed at new-buffer slot size — on
    throw nothing is constructed anywhere and new_data is released raw;
  line 226: uninitialized_copy_n copies old slots 0..size-1 to new slots
    0..size-1 — on a throw while copying element k it destroys the k
    elements it had itself constructed (new slots 0..k-1) and rethrows,
    leaving the element at new slot size constructed, after which new_data
    is released raw during unwinding while data_ and size_ are unchanged;
  lines 229-230: on success the old elements are destroyed and the buffers
    swapped, then size_ is incremented (line 237). -/
def EmplaceBackReallocCopyPath (size cap : Nat) (throwStep : Option Nat) : EBOutcome :=
  let newCap := if size = 0 then 1 else size * 2
  match throwStep with
  | some 0 => .thrown size cap true []
  | some (k + 1) =>
    if k < size then
      .thrown size cap true [size]
    else
      .ok (size + 1) newCap
  | none => .ok (size + 1) newCap

/-- getD through an append, index inside the left part. -/
theorem vecGetD_append_left {α : Type} (l l2 : List α) (j : Nat) (d : α)
    (h : j < l.length) : (l ++ l2).getD j d = l.getD j d := by
  induction l generalizing j with
  | nil => simp at h
  | cons a t ih =>
    cases j with
    | zero => rfl
    | succ j => exact ih j (by simpa using h)

/-- getD through an append, index past the left part. -/
theorem vecGetD_append_right {α : Type} (l l2 : List α) (j : Nat) (d : α)
    (h : l.length ≤ j) : (l ++ l2).getD j d = l2.getD (j - l.length) d := by
  induction l generalizing j with
  | nil => simp
  | cons a t ih =>
    cases j with
    | zero => simp at h
    | succ j => simpa using ih j (by simpa using h)

/-- getD through take, index below the cut. -/
theorem vecGetD_take {α : Type} (l : List α) (i j : Nat) (d : α)
    (h : j < i) : (l.take i).getD j d = l.getD j d := by
  induction l generalizing i j with
  | nil => simp
  | cons a t ih =>
    cases i with
    | zero => omega
    | succ i =>
      cases j with
      | zero => rfl
      | succ j => exact ih i j (by omega)

/-- getD through drop. -/
theorem vecGetD_drop {α : Type} (l : List α) (i j : Nat) (d : α) :
    (l.drop i).getD j d = l.getD (i + j) d := by
  induction l generalizing i with
  | nil => simp
  | cons a t ih =>
    cases i with
    | zero => simp
    | succ i =>
      have : i + 1 + j = (i + j) + 1 := by omega
      rw [this]
      simp [ih i]

/-- EmplaceBack appends the new value, in both branches. -/
theorem EmplaceBack_elems {α : Type} (v : VectorM α) (x : α) :
    (v.EmplaceBack x).elems = v.elems ++ [x] := by
  unfold VectorM.EmplaceBack
  split <;> rfl

/-- Folding PushBack over a list appends the list to the elements. -/
theorem foldl_PushBack_elems {α : Type} (vs : List α) (v : VectorM α) :
    (vs.foldl VectorM.PushBack v).elems = v.elems ++ vs := by
  induction vs generalizing v with
  | nil => simp
  | cons a t ih =>
    have h1 : (VectorM.PushBack v a).elems = v.elems ++ [a] :=
      EmplaceBack_elems v a
    simp [List.foldl, ih, h1]

/-- CopyFromRhsVector leaves the values of rhs in place with the capacity
of this. -/
theorem CopyFromRhsVector_eq {α : Type} (self rhs : VectorM α) :
    self.CopyFromRhsVector rhs = ⟨rhs.elems, self.cap⟩ := by
  unfold VectorM.CopyFromRhsVector
  by_cases h : rhs.Size < self.Size
  · rw [if_pos h]
    have hmin : min rhs.Size self.Size = rhs.Size := Nat.min_eq_left (Nat.le_of_lt h)
    simp only [hmin]
    have : rhs.elems.take rhs.Size = rhs.elems := by
      simp [VectorM.Size]
    rw [this]
  · rw [if_neg h]
    have hmin : min rhs.Size self.Size = self.Size :=
      Nat.min_eq_right (Nat.le_of_not_lt h)
    simp only [hmin]
    rw [List.take_append_drop]

/-- C1: exception injection into the reallocating EmplaceBack copy path at
size_ = Capacity() = 1, where the relocation copy of old element 0 throws
(step 1 of the trace). The exception propagates with size_ and Capacity()
unchanged and the original element intact, but new-buffer slot 1 — the new
element constructed at line 219 before the relocation began — is still
constructed when the exception leaves the call: the call leaks it instead
of destroying it, contrary to the propagation policy of the claim. -/
theorem c1_realloc_throw_leaks_new_element :
    EmplaceBackReallocCopyPath 1 1 (some 1) = .thrown 1 1 true [1] ∧
    ([1] : List Nat) ≠ [] := by decide

/-- C2: after pushing any finite sequence of values via PushBack onto an
initially empty vector, Size() equals the number of pushes and reading
index i for any i below Size() yields the i-th value pushed. -/
theorem c2_pushBack_fifo_order {α : Type} [Inhabited α] (vs : List α) :
    (vs.foldl VectorM.PushBack VectorM.emptyV).Size = vs.length ∧
    ∀ i, i < vs.length →
      (vs.foldl VectorM.PushBack VectorM.emptyV).atIdx i = vs.getD i default := by
  have he : (vs.foldl VectorM.PushBack (VectorM.emptyV : VectorM α)).elems = vs := by
    simpa [VectorM.emptyV] using foldl_PushBack_elems vs VectorM.emptyV
  constructor
  · simp [VectorM.Size, he]
  · intro i hi
    simp [VectorM.atIdx, he]

/-- Witness for C2 at the concrete push sequence [3, 4, 5] and index 1. -/
theorem c2_pushBack_fifo_order_witness :
    (([3, 4, 5] : List Nat).foldl VectorM.PushBack VectorM.emptyV).Size = 3 ∧
    (([3, 4, 5] : List Nat).foldl VectorM.PushBack VectorM.emptyV).atIdx 1 =
      ([3, 4, 5] : List Nat).getD 1 default :=
  ⟨(c2_pushBack_fifo_order [3, 4, 5]).1,
   (c2_pushBack_fifo_order [3, 4, 5]).2 1 (by decide)⟩

/-- C3: the assertion of Vector::Emplace (line 253) requires pos < end()
and so rejects pos == end(), although the claim and the spec admit it and
the function body itself handles it correctly as an append: on a vector
with one element and capacity 2, Emplace at distance 1 = size_ fails the
assertion while the code below it would append the value. -/
theorem c3_emplace_assert_rejects_end :
    VectorM.EmplaceAssertHolds (⟨[5], 2⟩ : VectorM Nat) 1 = false ∧
    (((⟨[5], 2⟩ : VectorM Nat).Emplace 1 7).1).elems = [5, 7] ∧
    (((⟨[5], 2⟩ : VectorM Nat).Emplace 1 7).1).Size = 2 := by decide

/-- C4 counterexample: for an element type whose move constructor is not
declared non-throwing and that is not copy constructible, the source
relocates by move construction, while the claim prescribes copy
construction for every type without a non-throwing move constructor. -/
theorem c4_moveonly_counterexample :
    relocatesByMove ⟨false, false⟩ = true ∧
    specRelocatesByMove ⟨false, false⟩ = false := by decide

/-- C4 amended: relocation uses move construction exactly when the move
constructor of the element type is declared non-throwing or the type is
not copy constructible; otherwise it uses copy construction. -/
theorem c4_relocation_condition (t : ElemTraits) :
    relocatesByMove t = true ↔
      (t.nothrowMoveConstructible = true ∨ t.copyConstructible = false) := by
  cases t with
  | mk nm cc => cases nm <;> cases cc <;> simp [relocatesByMove]

/-- C5: when size_ equals the capacity, EmplaceBack (hence PushBack) and
Emplace allocate the new buffer with size_ == 0 ? 1 : size_ * 2 slots,
which is max 1 (2 * old capacity). -/
theorem c5_realloc_capacity_doubles {α : Type} (v : VectorM α) (x : α) (i : Nat)
    (h : v.Size = v.cap) :
    (v.EmplaceBack x).cap = max 1 (2 * v.cap) ∧
    (v.PushBack x).cap = max 1 (2 * v.cap) ∧
    ((v.Emplace i x).1).cap = max 1 (2 * v.cap) := by
  have hge : v.Size ≥ v.cap := Nat.le_of_eq h.symm
  have hnlt : ¬ v.Size < v.cap := by omega
  have hcap : (if v.Size = 0 then 1 else v.Size * 2) = max 1 (2 * v.cap) := by
    split <;> omega
  refine ⟨?_, ?_, ?_⟩
  · unfold VectorM.EmplaceBack
    rw [if_pos hge]
    exact hcap
  · unfold VectorM.PushBack VectorM.EmplaceBack
    rw [if_pos hge]
    exact hcap
  · unfold VectorM.Emplace
    rw [if_neg hnlt]
    exact hcap

/-- Witness for C5 at a vector of one element with capacity 1. -/
theorem c5_realloc_capacity_doubles_witness :
    ((⟨[9], 1⟩ : VectorM Nat).EmplaceBack 7).cap = max 1 (2 * 1) ∧
    ((⟨[9], 1⟩ : VectorM Nat).PushBack 7).cap = max 1 (2 * 1) ∧
    (((⟨[9], 1⟩ : VectorM Nat).Emplace 0 7).1).cap = max 1 (2 * 1) :=
  c5_realloc_capacity_doubles ⟨[9], 1⟩ 7 0 (by decide)

/-- C6: Erase at a valid index i decreases Size() by exactly 1, keeps the
elements below i, moves each element previously at an index j > i down to
index j - 1, and returns the iterator at index i, which equals end()
exactly when the last element was erased. -/
theorem c6_erase_shifts_left {α : Type} [Inhabited α] (v : VectorM α) (i : Nat)
    (h : i < v.Size) :
    ((v.Erase i).1).Size = v.Size - 1 ∧
    (v.Erase i).2 = i ∧
    (∀ j, j < i → ((v.Erase i).1).atIdx j = v.atIdx j) ∧
    (∀ j, i < j → j < v.Size → ((v.Erase i).1).atIdx (j - 1) = v.atIdx j) ∧
    ((v.Erase i).2 = ((v.Erase i).1).Size ↔ i = v.Size - 1) := by
  have hle : i < v.elems.length := h
  have hsz : ((v.Erase i).1).Size = v.Size - 1 := by
    show (v.elems.take i ++ v.elems.drop (i + 1)).length = v.elems.length - 1
    simp only [List.length_append, List.length_take, List.length_drop]
    omega
  have htl : (v.elems.take i).length = i := by
    simp only [List.length_take]
    omega
  refine ⟨hsz, rfl, ?_, ?_, ?_⟩
  · intro j hj
    show (v.elems.take i ++ v.elems.drop (i + 1)).getD j default =
      v.elems.getD j default
    rw [vecGetD_append_left _ _ _ _ (by omega)]
    exact vecGetD_take _ _ _ _ hj
  · intro j hij hjs
    show (v.elems.take i ++ v.elems.drop (i + 1)).getD (j - 1) default =
      v.elems.getD j default
    rw [vecGetD_append_right _ _ _ _ (by omega), htl, vecGetD_drop]
    have : i + 1 + (j - 1 - i) = j := by omega
    rw [this]
  · rw [hsz]
    show i = v.Size - 1 ↔ i = v.Size - 1
    exact Iff.rfl

/-- Witness for C6 at the vector [3, 4, 5] (capacity 3), erasing index 1:
the length drops to 2 and the element previously at index 2 is read at
index 1. -/
theorem c6_erase_shifts_left_witness :
    (((⟨[3, 4, 5], 3⟩ : VectorM Nat).Erase 1).1).Size =
      (⟨[3, 4, 5], 3⟩ : VectorM Nat).Size - 1 ∧
    (((⟨[3, 4, 5], 3⟩ : VectorM Nat).Erase 1).1).atIdx (2 - 1) =
      (⟨[3, 4, 5], 3⟩ : VectorM Nat).atIdx 2 :=
  ⟨(c6_erase_shifts_left ⟨[3, 4, 5], 3⟩ 1 (by decide)).1,
   (c6_erase_shifts_left (⟨[3, 4, 5], 3⟩ : VectorM Nat) 1 (by decide)).2.2.2.1
     2 (by decide) (by decide)⟩

/-- C7 counterexample: move assignment swaps storage with the source, so a
vector with capacity 2 move-assigned from a vector with capacity 1 ends
with Capacity() 1, smaller than before the call. -/
theorem c7_moveassign_shrinks_capacity :
    (((⟨[5, 6], 2⟩ : VectorM Nat).MoveAssign ⟨[7], 1⟩ false).1).CapacityV <
      (⟨[5, 6], 2⟩ : VectorM Nat).CapacityV := by decide

/-- C7 amended: Resize (shrinking included), Erase, PopBack and copy
assignment never decrease Capacity(); move assignment exchanges storage
with the source, leaving exactly the capacity of the source, which may be
smaller than before. -/
theorem c7_capacity_never_shrinks {α : Type} [Inhabited α]
    (v rhs : VectorM α) (n i : Nat) :
    v.CapacityV ≤ (v.Resize n).CapacityV ∧
    ((v.Erase i).1).CapacityV = v.CapacityV ∧
    (v.PopBack).CapacityV = v.CapacityV ∧
    v.CapacityV ≤ (v.CopyAssign rhs false).CapacityV ∧
    ((v.MoveAssign rhs false).1).CapacityV = rhs.CapacityV := by
  refine ⟨?_, rfl, ?_, ?_, rfl⟩
  · unfold VectorM.Resize
    split
    · exact Nat.le_refl _
    · show v.CapacityV ≤ (if n > v.cap then v.Reserve n else v).cap
      unfold VectorM.Reserve
      rcases Nat.lt_or_ge v.cap n with hgt | hle
      · rw [if_pos hgt, if_neg (by omega)]
        show v.cap ≤ n
        omega
      · rw [if_neg (by omega)]
        exact Nat.le_refl _
  · unfold VectorM.PopBack
    split <;> rfl
  · unfold VectorM.CopyAssign
    rw [if_neg (by simp)]
    rcases Nat.lt_or_ge v.cap rhs.Size with hgt | hle
    · rw [if_pos hgt]
      show v.cap ≤ rhs.Size
      omega
    · rw [if_neg (by omega), CopyFromRhsVector_eq]
      exact Nat.le_refl _

/-- C8 counterexample: RawMemory move assignment into a destination that
already owns a buffer leaves the source holding the previous buffer of the
destination — here address some 1 and capacity 5, not the null address and
capacity 0 the claim requires. -/
theorem c8_moveassign_is_exchange :
    (RawMemoryMoveAssign ⟨some 1, 5⟩ ⟨some 2, 3⟩ false).1 = ⟨some 2, 3⟩ ∧
    (RawMemoryMoveAssign ⟨some 1, 5⟩ ⟨some 2, 3⟩ false).2 = ⟨some 1, 5⟩ ∧
    ((⟨some 1, 5⟩ : RawMemoryM) ≠ ⟨none, 0⟩) := by decide

/-- C8 amended: move construction transfers the address-capacity pair and
leaves the source with the null address and capacity 0; move assignment
exchanges the two pairs, so the source receives the previous address and
capacity of the destination, which are null and 0 only when the destination
was empty. -/
theorem c8_move_transfer (self rhs other : RawMemoryM) :
    RawMemoryMoveCtor other = (other, ⟨none, 0⟩) ∧
    RawMemoryMoveAssign self rhs false = (rhs, self) :=
  ⟨rfl, rfl⟩

/-- C9: move construction transfers the elements in order together with the
length and capacity to the new vector, and leaves the source empty with
Size() 0 (and capacity 0); the model performs no element operation, there
is no failure path. -/
theorem c9_move_ctor_transfers {α : Type} (v : VectorM α) :
    (VectorM.MoveCtor v).1 = v ∧
    (VectorM.MoveCtor v).2.Size = 0 ∧
    (VectorM.MoveCtor v).2.CapacityV = 0 :=
  ⟨rfl, rfl, rfl⟩

/-- C10: self assignment is a no-op: with the aliasing guard taken
(this == &rhs), both copy assignment and move assignment leave the vector
unchanged in length, capacity and element values. -/
theorem c10_self_assignment_noop {α : Type} (v : VectorM α) :
    v.CopyAssign v true = v ∧ (v.MoveAssign v true).1 = v :=
  ⟨rfl, rfl⟩
